import Mathlib

/-!
# gtranslate: the translation request protocol

A shallow embedding of `translate.go` (package `gtranslate`): the option
getters, `NewTranslate`, `requestURL`, `buildRequestData`, `doRequest` and
`formatResult`, followed by theorems about them.

Conventions of the embedding:
* Go `string` is `String`; `uint` is `Nat`; `time.Duration` (an `int64` count
  of nanoseconds) is `Int`.
* A value of Go type `any` produced by `encoding/json` is a `JSON`.
* A Go call that can return an error or abort with a runtime panic returns a
  `Result`, which keeps the three outcomes apart.
-/

namespace Gtranslate

/-! ## Values produced by `encoding/json` -/

/-- A JSON value as read from the body, which `encoding/json` stores in an `any` as
`nil`, `bool`, `float64`, `string`, `[]any` or `map[string]any`. A number is kept as the
decimal its literal denotes, sign, digits and power of ten (`-12.5e3` is `true 125 2`):
the code never inspects it, but the decoder must fit it into a `float64`. -/
inductive JSON where
  | null
  | bool (b : Bool)
  | number (negative : Bool) (digits : Nat) (exp10 : Int)
  | string (s : String)
  | array (elems : List JSON)
  | object (members : List (String × JSON))

/-- The content of the `io.Reader` handed to `formatResult`, as the JSON decoder
sees it: either no well-formed JSON value can be read, or a first value. -/
inductive Body where
  | malformed
  | value (v : JSON)

/-- Runtime panics the code can raise. -/
inductive Panic where
  /-- Text `index out of range`. -/
  | indexOutOfRange
  /-- Text `interface conversion`: an unchecked type assertion failed. -/
  | typeAssertion
  deriving DecidableEq, Repr

/-- Errors returned as the `error` result. -/
inductive Error where
  /-- Text `json decode error: ...`; the flag tells a shape mismatch from a syntax error. -/
  | jsonDecode (typeMismatch : Bool)
  /-- Failure of `http.NewRequestWithContext`, returned unwrapped. -/
  | newRequest (msg : String)
  /-- Text `http request error: ...` wrapping the error of `client.Do`. -/
  | httpRequest (cause : String)
  /-- The package error `errBadRequest`. -/
  | errBadRequest
  /-- Text `convert text to otto value error: ...`. -/
  | convertText (msg : String)
  deriving DecidableEq, Repr

/-- Outcome of a Go call: a value with a nil error, a non-nil error, or a panic. -/
inductive Result (α : Type) where
  | ok (a : α)
  | err (e : Error)
  | panic (p : Panic)
  deriving DecidableEq, Repr

/-- TransResult: the four strings returned to the caller. -/
structure TransResult where
  RequestText : String
  ResponseText : String
  RequestTongue : String
  ResponseTongue : String
  deriving DecidableEq, Repr

/-! ## `formatResult` -/

/-- The four local accumulators of `formatResult`. -/
structure Acc where
  requestText : String
  requestTongue : String
  responseText : String
  responseTongue : String
  deriving DecidableEq, Repr

/-- The least magnitude that `strconv.ParseFloat(s, 64)` rounds to infinity and reports
as out of range: the largest `float64` plus half a unit in the last place,
`2 ^ 1024 - 2 ^ 970`. -/
def float64Limit : Nat :=
  179769313486231580793728971405303415079934132710037826936173778980444968292764750946649017977587207096330286416692887910946555547851940402630657488671505820681908902000708383676273854845817711531764475730270069855571366959622842914819860834936475292719074168444365510704342711559699508093042880177904174497792

/-- Whether the number `digits * 10 ^ exp10` is out of the `float64` range. -/
def overflowsFloat64 (digits : Nat) : Int → Bool
  | .ofNat k => decide (float64Limit ≤ digits * 10 ^ k)
  | .negSucc k => decide (float64Limit * 10 ^ (k + 1) ≤ digits)

mutual
/-- Whether every number literal of a value fits a `float64`. When one does not, the
decoder records an unmarshal type error and `Decode` returns it. -/
def JSON.fits : JSON → Bool
  | .number _ digits exp10 => !overflowsFloat64 digits exp10
  | .array elems => fitsList elems
  | .object members => fitsMembers members
  | _ => true
/-- `JSON.fits` over the elements of an array. -/
def fitsList : List JSON → Bool
  | [] => true
  | x :: xs => x.fits && fitsList xs
/-- `JSON.fits` over the members of an object. -/
def fitsMembers : List (String × JSON) → Bool
  | [] => true
  | (_, v) :: ms => v.fits && fitsMembers ms
end

mutual
/-- How deep arrays and objects are nested in a value. -/
def JSON.nesting : JSON → Nat
  | .array elems => nestingList elems + 1
  | .object members => nestingMembers members + 1
  | _ => 0
/-- The deepest nesting among the elements of an array. -/
def nestingList : List JSON → Nat
  | [] => 0
  | x :: xs => max x.nesting (nestingList xs)
/-- The deepest nesting among the members of an object. -/
def nestingMembers : List (String × JSON) → Nat
  | [] => 0
  | (_, v) :: ms => max v.nesting (nestingMembers ms)
end

/-- The constant `maxNestingDepth` of the `encoding/json` scanner. -/
def maxNestingDepth : Nat := 10000

/-- Decoding `json.NewDecoder(body).Decode(&data)` with `data : []any`. The scanner
rejects a value nested deeper than `maxNestingDepth`; a number literal that does not fit
a `float64` is an unmarshal type error; otherwise an array fills the slice, `null`
leaves it nil (no error), and any other value is an unmarshal type error. -/
def decodeSlice : Body → Except Error (List JSON)
  | .malformed => .error (.jsonDecode false)
  | .value v =>
    if maxNestingDepth < v.nesting then .error (.jsonDecode false)
    else if v.fits = false then .error (.jsonDecode true)
    else
      match v with
      | .array xs => .ok xs
      | .null => .ok []
      | _ => .error (.jsonDecode true)

/-- The checked assertion `v.(string)` in its `t, ok :=` form. -/
def asString? : JSON → Option String
  | .string s => some s
  | _ => none

/-- The unchecked assertion `v.(string)`. -/
def mustString : Option JSON → Result String
  | some (.string s) => .ok s
  | some _ => .panic .typeAssertion
  | none => .panic .indexOutOfRange

/-- The `for i, obj := range objs` loop of `formatResult`, from index `i` on. -/
def formatLoop (objCount : Nat) : Nat → List JSON → Acc → Result Acc
  | _, [], acc => .ok acc
  | i, obj :: rest, acc =>
    match obj with
    | .array items =>
      match items with
      | [] => .ok acc
      | x0 :: tl =>
        let acc1 : Acc :=
          match asString? x0 with
          | some t => { acc with responseText := acc.responseText ++ t }
          | none => acc
        match tl with
        | [] => .panic .indexOutOfRange
        | x1 :: _ =>
          let acc2 : Acc :=
            match asString? x1 with
            | some tr => { acc1 with requestText := acc1.requestText ++ tr }
            | none => acc1
          if (i : Int) = (objCount : Int) - 1 then
            match mustString items[items.length - 1]? with
            | .ok s1 =>
              match mustString items[items.length - 2]? with
              | .ok s2 =>
                formatLoop objCount (i + 1) rest
                  { acc2 with requestTongue := acc2.requestTongue ++ s1,
                              responseTongue := acc2.responseTongue ++ s2 }
              | .err e => .err e
              | .panic p => .panic p
            | .err e => .err e
            | .panic p => .panic p
          else
            formatLoop objCount (i + 1) rest acc2
    | _ => .panic .typeAssertion

/-- The method `formatResult`. -/
def formatResult (body : Body) : Result TransResult :=
  match decodeSlice body with
  | .error e => .err e
  | .ok data =>
    match data with
    | [] => .panic .indexOutOfRange
    | d0 :: _ =>
      match d0 with
      | .array objs =>
        match formatLoop objs.length 0 objs ⟨"", "", "", ""⟩ with
        | .ok acc =>
          .ok { RequestText := acc.requestText, ResponseText := acc.responseText,
                RequestTongue := acc.requestTongue, ResponseTongue := acc.responseTongue }
        | .err e => .err e
        | .panic p => .panic p
      | _ => .panic .typeAssertion

/-- In-order concatenation of a list of strings. -/
def concatAll : List String → String
  | [] => ""
  | s :: ss => s ++ concatAll ss

/-- What a segment contributes to ResponseText: its first element when a string. -/
def firstText : List JSON → String
  | .string t :: _ => t
  | _ => ""

/-- What a segment contributes to RequestText: its second element when a string. -/
def secondText : List JSON → String
  | _ :: .string t :: _ => t
  | _ => ""

/-! ## Options, package variables and `NewTranslate` -/

/-- One second as a `time.Duration`. -/
def second : Int := 1000000000

/-- The struct `Option` of the package (named `GoOption` here, `Option` being taken). -/
structure GoOption where
  GoogleHost : String
  Delay : Int
  TryTimes : Nat
  Timeout : Int
  deriving DecidableEq, Repr

/-- The fields of `http.Client` the package sets. -/
structure HttpClient where
  Timeout : Int
  MaxIdleConns : Nat
  deriving DecidableEq, Repr

/-- The mutable package-level state: the one `http.Client` object that the
package variable `defaultHttpClient` points to. -/
structure Globals where
  defaultHttpClient : HttpClient
  deriving DecidableEq, Repr

/-- A `*http.Client`: the only client object ever allocated is the one behind
the package variable `defaultHttpClient`. -/
inductive ClientPtr where
  | defaultHttpClient
  deriving DecidableEq, Repr

/-- Dereferencing a `*http.Client` in the current state. -/
def ClientPtr.deref (g : Globals) : ClientPtr → HttpClient
  | .defaultHttpClient => g.defaultHttpClient

/-- The package variable `defaultOption`. -/
def defaultOption : GoOption :=
  { GoogleHost := "google.com", Delay := 0, TryTimes := 2, Timeout := second * 10 }

/-- The state after package initialisation. -/
def initGlobals : Globals :=
  { defaultHttpClient := { Timeout := 10 * second, MaxIdleConns := 2 } }

/-- The struct `Translate`. -/
structure Translate where
  host : String
  delay : Int
  tryTimes : Nat
  client : ClientPtr
  deriving DecidableEq, Repr

def GoOption.getGoogleHost (o : GoOption) : String :=
  if o.GoogleHost = "" then defaultOption.GoogleHost else o.GoogleHost

def GoOption.getTryTimes (o : GoOption) : Nat :=
  if o.TryTimes ≤ 0 then defaultOption.TryTimes else o.TryTimes

def GoOption.getDelay (o : GoOption) : Int :=
  if o.Delay ≤ 0 then defaultOption.Delay else o.Delay

def GoOption.getTimeout (o : GoOption) (g : Globals) : Int :=
  if o.Timeout ≤ 0 then g.defaultHttpClient.Timeout else o.Timeout

/-- The function `NewTranslate`, passing the package state explicitly:
`client := defaultHttpClient` copies the pointer, so `client.Timeout = ...`
writes to the shared object. -/
def NewTranslate (options : List GoOption) (g : Globals) : Translate × Globals :=
  let option := match options with
    | [] => defaultOption
    | o :: _ => o
  let client := ClientPtr.defaultHttpClient
  let g1 : Globals :=
    if option.Timeout > 0 then
      { g with defaultHttpClient := { g.defaultHttpClient with Timeout := option.getTimeout g } }
    else g
  ({ client := client, host := option.getGoogleHost, delay := option.getDelay,
     tryTimes := option.getTryTimes }, g1)

/-- The timeout in effect for a client in a given state: `t.client.Timeout`. -/
def Translate.timeout (t : Translate) (g : Globals) : Int :=
  (t.client.deref g).Timeout

def Translate.requestURL (t : Translate) : String :=
  "https://translate." ++ t.host ++ "/translate_a/single"

/-! ## `doRequest` -/

/-- What one call `t.client.Do(r)` yields: a transport-level error, or a
response with its status code and body. -/
inductive Attempt where
  | transportError (cause : String)
  | response (statusCode : Nat) (body : Body)

/-- The observable steps of `doRequest`. -/
inductive Event where
  /-- One call of `t.client.Do(r)`. -/
  | attempt
  /-- One call of `time.Sleep(d)`. -/
  | sleep (d : Int)
  deriving DecidableEq, Repr

/-- What a run of `doRequest` returns, and the steps it took, in order. -/
structure Fetch where
  result : Result Body
  trace : List Event

/-- The loop `for tryTimes > 0` of `doRequest`; `n` counts the calls of
`client.Do` made so far and `server n` is what the next call yields. -/
def doRequestLoop (delay : Int) (server : Nat → Attempt) : Nat → Nat → Fetch
  | 0, _ => { result := .err .errBadRequest, trace := [] }
  | tryTimes + 1, n =>
    match server n with
    | .transportError cause =>
      { result := .err (.httpRequest cause), trace := [.attempt] }
    | .response statusCode body =>
      if statusCode = 200 then
        { result := .ok body, trace := [.attempt] }
      else
        let r := doRequestLoop delay server tryTimes (n + 1)
        { result := r.result, trace := .attempt :: .sleep delay :: r.trace }

/-- The method `doRequest`. `newRequest` is the error of
`http.NewRequestWithContext(ctx, GET, url, nil)`, if any. -/
def Translate.doRequest (t : Translate) (newRequest : Option String)
    (server : Nat → Attempt) : Fetch :=
  match newRequest with
  | some msg => { result := .err (.newRequest msg), trace := [] }
  | none => doRequestLoop t.delay server t.tryTimes 0

/-- Number of calls of `client.Do` in a trace. -/
def attempts (tr : List Event) : Nat :=
  tr.countP (fun e => decide (e = Event.attempt))

/-- Number of calls of `time.Sleep` in a trace. -/
def sleeps (tr : List Event) : Nat :=
  tr.countP (fun e => match e with
    | .sleep _ => true
    | .attempt => false)

/-- An attempt that returned a response whose status is not 200. -/
def Attempt.isNon200 : Attempt → Bool
  | .response statusCode _ => decide (statusCode ≠ 200)
  | .transportError _ => false

/-- The trace of `n` failed rounds: an attempt, then a sleep, `n` times. -/
def failedRounds (delay : Int) : Nat → List Event
  | 0 => []
  | n + 1 => .attempt :: .sleep delay :: failedRounds delay n

/-! ## The signing token -/

/-- A value of the embedded evaluator (`otto.Value`); the package only builds strings. -/
inductive OttoValue where
  | string (s : String)

/-- The call `otto.ToValue` on a Go string, which always succeeds. -/
def ottoToValue (s : String) : Except Error OttoValue :=
  .ok (.string s)

/-- The package variable `ttk`, set by `init` to `otto.ToValue("0")`. -/
def ttk : OttoValue := .string "0"

/-- Reduction of a natural number to a 32-bit pattern. -/
def wrap32 (n : Nat) : Nat := n % 2 ^ 32

/-- The signed reading of a 32-bit pattern. -/
def toInt32 (n : Nat) : Int :=
  if wrap32 n < 2 ^ 31 then (wrap32 n : Int) else (wrap32 n : Int) - 2 ^ 32

/-- Modelled from the spec: the shift amount of a pattern character of `scramble`
(the signing routine is not among the sources), "numeric value of shiftChar (digit
literal, or charCode - 87 if alphabetic)". -/
def shiftAmount (c : Char) : Nat :=
  if c.isAlpha then c.toNat - 87 else c.toNat - 48

/-- Modelled from the spec: `scramble(a, pattern)` of the signing routine (not among the
sources). The pattern is walked in triplets `(op, dir, shiftChar)`: logical right shift
when `dir` is `+`, left shift otherwise; 32-bit wraparound addition when `op` is `+`,
exclusive or otherwise. Accumulators are 32-bit patterns. -/
def scramble (a : Nat) : List Char → Nat
  | op :: dir :: shiftChar :: rest =>
    let d := shiftAmount shiftChar
    let shifted := if dir = '+' then a >>> d else wrap32 (a <<< d)
    let a1 := if op = '+' then wrap32 (a + shifted) else a ^^^ shifted
    scramble a1 rest
  | _ => a

/-- Modelled from the spec: step 1 of the signing routine (not among the sources), the
1 to 4 byte values of one code point, by code point range. -/
def utf8Bytes (c : Nat) : List Nat :=
  if c < 128 then [c]
  else if c < 2048 then [c >>> 6 ||| 192, c &&& 63 ||| 128]
  else if c < 65536 then [c >>> 12 ||| 224, (c >>> 6) &&& 63 ||| 128, c &&& 63 ||| 128]
  else [c >>> 18 ||| 240, (c >>> 12) &&& 63 ||| 128, (c >>> 6) &&& 63 ||| 128, c &&& 63 ||| 128]

/-- Modelled from the spec: the byte-like values of a text (signing routine, step 1). -/
def utf8Expand (text : String) : List Nat :=
  text.toList.foldr (fun c acc => utf8Bytes c.toNat ++ acc) []

/-- Modelled from the spec: one component of the seed key `"<h>.<s>"` (the signing
routine is not among the sources); a missing or non-numeric component counts as 0. -/
def seedComponent (cs : List Char) : Nat :=
  if cs ≠ [] ∧ cs.all Char.isDigit = true then
    cs.foldl (fun n c => 10 * n + (c.toNat - 48)) 0
  else 0

/-- Modelled from the spec: the two components `(h, s)` of a seed key `"<h>.<s>"`
(the signing routine is not among the sources). -/
def seedParts (key : String) : Nat × Nat :=
  let cs := key.toList
  (seedComponent (cs.takeWhile (fun c => c ≠ '.')),
   seedComponent ((cs.dropWhile (fun c => c ≠ '.')).drop 1))

/-- Modelled from the spec: steps 2 to 7 of the signing routine (not among the sources),
the reduced accumulator for the byte values of a text and the seed components. -/
def signValue (bytes : List Nat) (h s : Nat) : Nat :=
  let a0 := wrap32 h
  let a1 := bytes.foldl (fun a v => scramble (wrap32 (a + v)) "+-a^+6".toList) a0
  let a2 := scramble a1 "+-3^+b+-f".toList
  let a3 := a2 ^^^ wrap32 s
  let a4 := if toInt32 a3 < 0 then (a3 &&& 2147483647) + 2147483648 else a3
  a4 % 1000000

/-- Modelled from the spec: the signing function `get(text, key)` called by
`buildRequestData`, whose source file is not among the sources (spec 4.1, steps 1 to 8):
the token `"<a>.<a XOR h>"`. -/
def get (a : OttoValue) (key : OttoValue) : String :=
  match a, key with
  | .string text, .string k =>
    let hs := seedParts k
    let v := signValue (utf8Expand text) hs.1 hs.2
    toString v ++ "." ++ toString (toInt32 (v ^^^ wrap32 hs.1))

/-! ## `buildRequestData` -/

/-- The type `url.Values`, a `map[string][]string`, as a finite partial function. -/
def Values := String → Option (List String)

/-- The empty map `url.Values{}`. -/
def Values.empty : Values := fun _ => none

/-- The method `Values.Add`: `v[key] = append(v[key], value)`. -/
def Values.Add (v : Values) (key value : String) : Values :=
  fun k => if k = key then some ((v k).getD [] ++ [value]) else v k

/-- A `language.Tag`; the package only calls its `String` method. -/
structure Tag where
  name : String

/-- The method `Tag.String`. -/
def Tag.String (t : Tag) : String := t.name

/-- The entries of the map literal `data` of `buildRequestData`, as written. -/
def requestData (text : String) (fromTag toTag : Tag) : List (String × String) :=
  [("client", "gtx"), ("sl", fromTag.String), ("tl", toTag.String), ("hl", toTag.String),
   ("ie", "UTF-8"), ("oe", "UTF-8"), ("otf", "1"), ("ssel", "0"), ("tsel", "0"),
   ("kc", "7"), ("q", text)]

/-- The `dt` values, in the order of the slice literal. -/
def dtValues : List String :=
  ["at", "bd", "ex", "ld", "md", "qca", "rw", "rm", "ss", "t"]

/-- The loop `for k, v := range data { params.Add(k, v) }` over the entries in the order
they are visited. -/
def addEntries (entries : List (String × String)) (params : Values) : Values :=
  entries.foldl (fun p kv => p.Add kv.1 kv.2) params

/-- The method `buildRequestData`. Go leaves the iteration order of `range data`
unspecified: `visit` is the order in which the runtime visits the entries of a map. -/
def Translate.buildRequestData (_t : Translate) (text : String) (fromTag toTag : Tag)
    (visit : List (String × String) → List (String × String)) : Result Values :=
  match ottoToValue text with
  | .error _ => .err (.convertText "convert text to otto value error")
  | .ok vt =>
    let token := get vt ttk
    let data := requestData text fromTag toTag
    let params := addEntries (visit data) Values.empty
    let params := dtValues.foldl (fun p v => p.Add "dt" v) params
    .ok (params.Add "tk" token)

/-- The parameter set `buildRequestData` returns, as an expression of its own. -/
def builtParams (text : String) (fromTag toTag : Tag)
    (visit : List (String × String) → List (String × String)) : Values :=
  ((dtValues.foldl (fun p v => p.Add "dt" v)
      (addEntries (visit (requestData text fromTag toTag)) Values.empty)).Add "tk"
    (get (.string text) ttk))

/-- A server answering 500, then 503, then 200 with the given body (and 200 afterwards). -/
def twoFailuresThenOK (body : Body) : Nat → Attempt
  | 0 => .response 500 .malformed
  | 1 => .response 503 .malformed
  | _ => .response 200 body

/-- A server whose first call fails at the transport level and whose later calls answer 200. -/
def transportErrorThenOK (body : Body) : Nat → Attempt
  | 0 => .transportError "connection reset"
  | _ => .response 200 body

/-! ## Theorems about `formatResult` -/

theorem float64Limit_eq : float64Limit = 2 ^ 1024 - 2 ^ 970 := by
  unfold float64Limit
  norm_num


theorem concatAll_append (xs ys : List String) :
    concatAll (xs ++ ys) = concatAll xs ++ concatAll ys := by
  induction xs with
  | nil => simp [concatAll]
  | cons x xs ih => simp [concatAll, ih, String.append_assoc]

/-- One iteration on a segment with at least two elements that is not at the last index. -/
theorem formatLoop_step (objCount i : Nat) (x0 x1 : JSON) (tl : List JSON) (rest : List JSON)
    (acc : Acc) (hi : i + 1 < objCount) :
    formatLoop objCount i (.array (x0 :: x1 :: tl) :: rest) acc
      = formatLoop objCount (i + 1) rest
          { acc with responseText := acc.responseText ++ firstText (x0 :: x1 :: tl),
                     requestText := acc.requestText ++ secondText (x0 :: x1 :: tl) } := by
  have hne : ¬ ((i : Int) = (objCount : Int) - 1) := by omega
  cases x0 <;> cases x1 <;> simp [formatLoop, asString?, firstText, secondText, hne]

/-- The loop over a run of segments with at least two elements, none at the last index. -/
theorem formatLoop_prefix (objCount : Nat) (pre : List (List JSON)) :
    ∀ (i : Nat) (rest : List JSON) (acc : Acc),
      (∀ s ∈ pre, 2 ≤ s.length) → i + pre.length < objCount →
      formatLoop objCount i (pre.map JSON.array ++ rest) acc
        = formatLoop objCount (i + pre.length) rest
            { acc with responseText := acc.responseText ++ concatAll (pre.map firstText),
                       requestText := acc.requestText ++ concatAll (pre.map secondText) } := by
  induction pre with
  | nil => intro i rest acc _ _; simp [concatAll]
  | cons s pre ih =>
    intro i rest acc hlen hi
    have hs : 2 ≤ s.length := hlen s (List.mem_cons_self _ _)
    have hpre : ∀ t ∈ pre, 2 ≤ t.length := fun t ht => hlen t (List.mem_cons_of_mem _ ht)
    simp only [List.length_cons] at hi
    match s, hs with
    | x0 :: x1 :: tl, _ =>
      simp only [List.map_cons, List.cons_append]
      rw [formatLoop_step objCount i x0 x1 tl _ acc (by omega)]
      rw [ih (i + 1) rest _ hpre (by omega)]
      simp [concatAll, String.append_assoc, Nat.add_assoc, Nat.add_comm 1]

/-- The iteration on the segment at the last index, whose two last elements are strings. -/
theorem formatLoop_last (objCount i : Nat) (items : List JSON) (acc : Acc) (s1 s2 : String)
    (hi : i + 1 = objCount) (hlen : 2 ≤ items.length)
    (h1 : items[items.length - 1]? = some (.string s1))
    (h2 : items[items.length - 2]? = some (.string s2)) :
    formatLoop objCount i [.array items] acc
      = .ok { responseText := acc.responseText ++ firstText items,
              requestText := acc.requestText ++ secondText items,
              requestTongue := acc.requestTongue ++ s1,
              responseTongue := acc.responseTongue ++ s2 } := by
  have hlast : (i : Int) = (objCount : Int) - 1 := by omega
  have e1 : mustString items[items.length - 1]? = .ok s1 := by rw [h1]; rfl
  have e2 : mustString items[items.length - 2]? = .ok s2 := by rw [h2]; rfl
  match items, hlen, e1, e2 with
  | x0 :: x1 :: tl, _, e1, e2 =>
    simp only [formatLoop, hlast, if_true, e1, e2]
    cases x0 <;> cases x1 <;> simp [asString?, firstText, secondText]

set_option exponentiation.threshold 1100 in
/-- C1 as stated fails: the body `[[["Bonjour","Hello",1e999,"en","fr"]]]` is one segment
of at least 2 elements ending in two strings, yet formatResult returns a json decode
error, because the literal `1e999` does not fit a float64. -/
theorem formatResult_wellShaped_overflow :
    (∀ s ∈ [[JSON.string "Bonjour", .string "Hello", .number false 1 999, .string "en",
        .string "fr"]], 2 ≤ s.length)
    ∧ [JSON.string "Bonjour", .string "Hello", .number false 1 999, .string "en",
        .string "fr"][4]? = some (.string "fr")
    ∧ [JSON.string "Bonjour", .string "Hello", .number false 1 999, .string "en",
        .string "fr"][3]? = some (.string "en")
    ∧ formatResult (.value (.array [.array [.array [.string "Bonjour", .string "Hello",
        .number false 1 999, .string "en", .string "fr"]]])) = .err (.jsonDecode true) := by
  refine ⟨by simp, rfl, rfl, ?_⟩
  decide

/-- C1 amended: for every body that the decoder accepts (nested at most 10000 deep, every
number literal fitting a float64) and that is a JSON array whose first element is a list
of n >= 1 segments, every segment an array of at least 2 elements, the last segment
ending in two strings, formatResult succeeds; ResponseText is the in-order concatenation
of the segments' first elements that are strings, RequestText that of their second
elements that are strings, RequestTongue is the last element of the last segment and
ResponseTongue its second-to-last element. -/
theorem formatResult_wellShaped (segs : List (List JSON)) (others : List JSON)
    (reqTongue respTongue : String) (hne : segs ≠ [])
    (hdepth : (JSON.array (.array (segs.map JSON.array) :: others)).nesting ≤ maxNestingDepth)
    (hfits : (JSON.array (.array (segs.map JSON.array) :: others)).fits = true)
    (hlen : ∀ s ∈ segs, 2 ≤ s.length)
    (hreq : (segs.getLast hne)[(segs.getLast hne).length - 1]? = some (.string reqTongue))
    (hresp : (segs.getLast hne)[(segs.getLast hne).length - 2]? = some (.string respTongue)) :
    formatResult (.value (.array (.array (segs.map JSON.array) :: others)))
      = .ok { ResponseText := concatAll (segs.map firstText),
              RequestText := concatAll (segs.map secondText),
              RequestTongue := reqTongue,
              ResponseTongue := respTongue } := by
  have hsplit : segs = segs.dropLast ++ [segs.getLast hne] :=
    (List.dropLast_append_getLast hne).symm
  have hcount : segs.dropLast.length + 1 = segs.length := by
    have := congrArg List.length hsplit
    simp only [List.length_append, List.length_singleton] at this
    omega
  have hinit : ∀ s ∈ segs.dropLast, 2 ≤ s.length :=
    fun s hs => hlen s (List.mem_of_mem_dropLast hs)
  have hl : 2 ≤ (segs.getLast hne).length := hlen _ (List.getLast_mem hne)
  have hloop : formatLoop segs.length 0 (segs.map JSON.array) ⟨"", "", "", ""⟩
      = .ok { responseText := concatAll (segs.map firstText),
              requestText := concatAll (segs.map secondText),
              requestTongue := reqTongue, responseTongue := respTongue } := by
    have hmap : segs.map JSON.array
        = segs.dropLast.map JSON.array ++ [JSON.array (segs.getLast hne)] := by
      conv_lhs => rw [hsplit]
      simp
    have hf : segs.map firstText
        = segs.dropLast.map firstText ++ [firstText (segs.getLast hne)] := by
      conv_lhs => rw [hsplit]
      simp
    have hs : segs.map secondText
        = segs.dropLast.map secondText ++ [secondText (segs.getLast hne)] := by
      conv_lhs => rw [hsplit]
      simp
    rw [hmap, formatLoop_prefix segs.length segs.dropLast 0 _ _ hinit (by omega)]
    rw [formatLoop_last segs.length (0 + segs.dropLast.length) _ _ reqTongue respTongue
      (by omega) hl hreq hresp]
    rw [hf, hs, concatAll_append, concatAll_append]
    simp [concatAll]
  have hdec : decodeSlice (.value (.array (.array (segs.map JSON.array) :: others)))
      = .ok (.array (segs.map JSON.array) :: others) := by
    simp only [decodeSlice, Nat.not_lt.mpr hdepth, hfits, if_false]
    rfl
  simp only [formatResult, hdec, List.length_map, hloop]

/-- C1 amended, witness: the two-segment body of decoder scenario A. -/
theorem formatResult_wellShaped_witness :
    formatResult (.value (.array [.array [.array [.string "Bonjour ", .string "Hello "],
        .array [.string "le monde", .string "World", .string "en", .string "fr"]]]))
      = .ok { ResponseText := "Bonjour le monde", RequestText := "Hello World",
              RequestTongue := "fr", ResponseTongue := "en" } :=
  formatResult_wellShaped
    [[.string "Bonjour ", .string "Hello "],
     [.string "le monde", .string "World", .string "en", .string "fr"]] [] "fr" "en"
    (by simp) (by decide) (by decide) (by simp) (by simp) (by simp)

set_option exponentiation.threshold 1100 in
/-- C2 as stated fails: in the body `[[["a","b"],[],["c",1e999]]]` the segment at index 1
is the first empty one and the segment before it has 2 elements, yet formatResult returns
a json decode error: the segment after the empty one is not ignored, its literal `1e999`
does not fit a float64. -/
theorem formatResult_emptySegment_overflow :
    (∀ s ∈ [[JSON.string "a", .string "b"]], 2 ≤ s.length)
    ∧ formatResult (.value (.array [.array ([[JSON.string "a", .string "b"]].map JSON.array
        ++ .array [] :: [.array [.string "c", .number false 1 999]])])) = .err (.jsonDecode true) := by
  refine ⟨by simp, ?_⟩
  decide

/-- C2 amended: for every body that the decoder accepts (nested at most 10000 deep, every
number literal fitting a float64), when the segment at index k is the first empty one and
every segment before it has at least 2 elements, formatResult succeeds, the result does
not depend on the elements from index k on, ResponseText and RequestText are the
concatenations over segments 0..k-1, and both tongues are the empty string. -/
theorem formatResult_emptySegment (pre : List (List JSON)) (post others : List JSON)
    (hdepth : (JSON.array (.array (pre.map JSON.array ++ .array [] :: post) :: others)).nesting
      ≤ maxNestingDepth)
    (hfits : (JSON.array (.array (pre.map JSON.array ++ .array [] :: post) :: others)).fits
      = true)
    (hlen : ∀ s ∈ pre, 2 ≤ s.length) :
    formatResult (.value (.array (.array (pre.map JSON.array ++ .array [] :: post) :: others)))
      = .ok { ResponseText := concatAll (pre.map firstText),
              RequestText := concatAll (pre.map secondText),
              RequestTongue := "",
              ResponseTongue := "" } := by
  have hloop := formatLoop_prefix (pre.map JSON.array ++ .array [] :: post).length pre 0
    (.array [] :: post) ⟨"", "", "", ""⟩ hlen (by simp)
  have hdec : decodeSlice
      (.value (.array (.array (pre.map JSON.array ++ .array [] :: post) :: others)))
      = .ok (.array (pre.map JSON.array ++ .array [] :: post) :: others) := by
    simp only [decodeSlice, Nat.not_lt.mpr hdepth, hfits, if_false]
    rfl
  simp only [formatResult, hdec, hloop, formatLoop]
  simp

/-- C2 amended, witness: decoder scenario B, an empty first segment. -/
theorem formatResult_emptySegment_witness :
    formatResult (.value (.array [.array [.array [],
        .array [.string "le monde", .string "World", .string "en", .string "fr"]]]))
      = .ok { ResponseText := "", RequestText := "", RequestTongue := "", ResponseTongue := "" } :=
  formatResult_emptySegment []
    [.array [.string "le monde", .string "World", .string "en", .string "fr"]] []
    (by decide) (by decide) (by simp)

/-- C4: on valid JSON lacking the expected shape formatResult does not return a decode
failure. The bodies `null` and `[]` panic with an index out of range, the bodies `[5]`
and `[[5]]` panic on a failed type assertion, and `[[[],5]]` is returned as a success. -/
theorem formatResult_shape_panics :
    formatResult (.value .null) = .panic .indexOutOfRange
    ∧ formatResult (.value (.array [])) = .panic .indexOutOfRange
    ∧ formatResult (.value (.array [.number false 5 0])) = .panic .typeAssertion
    ∧ formatResult (.value (.array [.array [.number false 5 0]])) = .panic .typeAssertion
    ∧ formatResult (.value (.array [.array [.array [], .number false 5 0]]))
        = .ok { ResponseText := "", RequestText := "", RequestTongue := "", ResponseTongue := "" } := by
  refine ⟨rfl, rfl, rfl, rfl, rfl⟩

/-! ## Theorems about `doRequest` -/

theorem attempts_failedRounds (d : Int) (n : Nat) : attempts (failedRounds d n) = n := by
  induction n with
  | zero => rfl
  | succ n ih =>
    simp only [attempts] at ih
    simp [failedRounds, attempts, ih]

theorem sleeps_failedRounds (d : Int) (n : Nat) : sleeps (failedRounds d n) = n := by
  induction n with
  | zero => rfl
  | succ n ih =>
    simp only [sleeps] at ih
    simp [failedRounds, sleeps, ih]

theorem attempts_append (xs ys : List Event) : attempts (xs ++ ys) = attempts xs + attempts ys := by
  simp [attempts]

theorem sleeps_append (xs ys : List Event) : sleeps (xs ++ ys) = sleeps xs + sleeps ys := by
  simp [sleeps]

/-- A non-200 response makes the loop sleep and go round again. -/
theorem doRequestLoop_non200 (delay : Int) (server : Nat → Attempt) (m n : Nat)
    (h : (server n).isNon200 = true) :
    doRequestLoop delay server (m + 1) n
      = { result := (doRequestLoop delay server m (n + 1)).result,
          trace := .attempt :: .sleep delay :: (doRequestLoop delay server m (n + 1)).trace } := by
  cases hs : server n with
  | transportError c => simp [hs, Attempt.isNon200] at h
  | response code b =>
    have hc : code ≠ 200 := by simpa [hs, Attempt.isNon200] using h
    simp [doRequestLoop, hs, hc]

/-- After `j` non-200 responses, a 200 response ends the loop with its body. -/
theorem doRequestLoop_success (delay : Int) (server : Nat → Attempt) (body : Body) :
    ∀ (j m n : Nat), j < m → (∀ i < j, (server (n + i)).isNon200 = true) →
      server (n + j) = .response 200 body →
      doRequestLoop delay server m n
        = { result := .ok body, trace := failedRounds delay j ++ [.attempt] } := by
  intro j
  induction j with
  | zero =>
    intro m n hm _ h200
    obtain ⟨m, rfl⟩ : ∃ m', m = m' + 1 := ⟨m - 1, by omega⟩
    simp only [Nat.add_zero] at h200
    simp [doRequestLoop, h200, failedRounds]
  | succ j ih =>
    intro m n hm hnon h200
    obtain ⟨m, rfl⟩ : ∃ m', m = m' + 1 := ⟨m - 1, by omega⟩
    have h0 : (server n).isNon200 = true := by simpa using hnon 0 (by omega)
    rw [doRequestLoop_non200 delay server m n h0]
    rw [ih m (n + 1) (by omega)
      (fun i hi => by have := hnon (i + 1) (by omega); rwa [show n + 1 + i = n + (i + 1) by omega])
      (by rwa [show n + 1 + j = n + (j + 1) by omega])]
    simp [failedRounds]

/-- After `j` non-200 responses, a transport error ends the loop at once. -/
theorem doRequestLoop_transport (delay : Int) (server : Nat → Attempt) (cause : String) :
    ∀ (j m n : Nat), j < m → (∀ i < j, (server (n + i)).isNon200 = true) →
      server (n + j) = .transportError cause →
      doRequestLoop delay server m n
        = { result := .err (.httpRequest cause), trace := failedRounds delay j ++ [.attempt] } := by
  intro j
  induction j with
  | zero =>
    intro m n hm _ herr
    obtain ⟨m, rfl⟩ : ∃ m', m = m' + 1 := ⟨m - 1, by omega⟩
    simp only [Nat.add_zero] at herr
    simp [doRequestLoop, herr, failedRounds]
  | succ j ih =>
    intro m n hm hnon herr
    obtain ⟨m, rfl⟩ : ∃ m', m = m' + 1 := ⟨m - 1, by omega⟩
    have h0 : (server n).isNon200 = true := by simpa using hnon 0 (by omega)
    rw [doRequestLoop_non200 delay server m n h0]
    rw [ih m (n + 1) (by omega)
      (fun i hi => by have := hnon (i + 1) (by omega); rwa [show n + 1 + i = n + (i + 1) by omega])
      (by rwa [show n + 1 + j = n + (j + 1) by omega])]
    simp [failedRounds]

/-- When every response is non-200 the loop runs `m` rounds, each ending in a sleep. -/
theorem doRequestLoop_exhausted (delay : Int) (server : Nat → Attempt) :
    ∀ (m n : Nat), (∀ i < m, (server (n + i)).isNon200 = true) →
      doRequestLoop delay server m n
        = { result := .err .errBadRequest, trace := failedRounds delay m } := by
  intro m
  induction m with
  | zero => intro n _; simp [doRequestLoop, failedRounds]
  | succ m ih =>
    intro n hnon
    have h0 : (server n).isNon200 = true := by simpa using hnon 0 (by omega)
    rw [doRequestLoop_non200 delay server m n h0]
    rw [ih (n + 1)
      (fun i hi => by have := hnon (i + 1) (by omega); rwa [show n + 1 + i = n + (i + 1) by omega])]
    simp [failedRounds]

/-- C3: with attempt count N, if attempts 1..k-1 (k <= N) return a non-200 status
and attempt k returns 200, doRequest returns attempt k's body after exactly k attempts;
if the first N attempts all return a non-200 status, doRequest makes exactly N attempts
and returns errBadRequest. -/
theorem doRequest_retry (t : Translate) (server : Nat → Attempt) :
    (∀ (k : Nat) (body : Body), 1 ≤ k → k ≤ t.tryTimes →
        (∀ j < k - 1, (server j).isNon200 = true) →
        server (k - 1) = .response 200 body →
        (t.doRequest none server).result = .ok body
          ∧ attempts (t.doRequest none server).trace = k)
    ∧ ((∀ j < t.tryTimes, (server j).isNon200 = true) →
        (t.doRequest none server).result = .err .errBadRequest
          ∧ attempts (t.doRequest none server).trace = t.tryTimes) := by
  constructor
  · intro k body hk hkN hnon h200
    have h := doRequestLoop_success t.delay server body (k - 1) t.tryTimes 0 (by omega)
      (fun i hi => by simpa using hnon i hi) (by simpa using h200)
    simp only [Translate.doRequest, h, attempts_append, attempts_failedRounds, true_and]
    simp [attempts]
    omega
  · intro hnon
    have h := doRequestLoop_exhausted t.delay server t.tryTimes 0
      (fun i hi => by simpa using hnon i hi)
    simp only [Translate.doRequest, h, attempts_failedRounds, and_self]

/-- C3 witness: the responses 500, 503, 200 succeed with the third body for N = 3 and
are exhausted for N = 2. -/
theorem doRequest_retry_witness :
    ((Translate.doRequest ⟨"google.com", 0, 3, .defaultHttpClient⟩ none
          (twoFailuresThenOK (.value (.array [])))).result = .ok (.value (.array []))
      ∧ attempts (Translate.doRequest ⟨"google.com", 0, 3, .defaultHttpClient⟩ none
          (twoFailuresThenOK (.value (.array [])))).trace = 3)
    ∧ ((Translate.doRequest ⟨"google.com", 0, 2, .defaultHttpClient⟩ none
          (twoFailuresThenOK (.value (.array [])))).result = .err .errBadRequest
      ∧ attempts (Translate.doRequest ⟨"google.com", 0, 2, .defaultHttpClient⟩ none
          (twoFailuresThenOK (.value (.array [])))).trace = 2) :=
  ⟨(doRequest_retry ⟨"google.com", 0, 3, .defaultHttpClient⟩
      (twoFailuresThenOK (.value (.array [])))).1 3 (.value (.array []))
      (by decide) (by decide) (by decide) rfl,
   (doRequest_retry ⟨"google.com", 0, 2, .defaultHttpClient⟩
      (twoFailuresThenOK (.value (.array [])))).2 (by decide)⟩

/-- C5, as stated, fails: with N = 2, a transport failure on attempt 1 and a 200 on
attempt 2, doRequest returns the transport failure after one attempt and no sleep; it
does not return the second attempt's body. -/
theorem doRequest_transport_not_retried :
    (Translate.doRequest ⟨"google.com", 0, 2, .defaultHttpClient⟩ none
        (transportErrorThenOK (.value (.array [])))).result
      = .err (.httpRequest "connection reset")
    ∧ (Translate.doRequest ⟨"google.com", 0, 2, .defaultHttpClient⟩ none
        (transportErrorThenOK (.value (.array [])))).trace = [.attempt]
    ∧ ¬ ((Translate.doRequest ⟨"google.com", 0, 2, .defaultHttpClient⟩ none
        (transportErrorThenOK (.value (.array [])))).result = .ok (.value (.array []))) := by
  refine ⟨rfl, rfl, ?_⟩
  intro h
  have hr : (Translate.doRequest ⟨"google.com", 0, 2, .defaultHttpClient⟩ none
      (transportErrorThenOK (.value (.array [])))).result
      = .err (.httpRequest "connection reset") := rfl
  rw [hr] at h
  cases h

/-- C5 amended: a transport-level failure is not retried. With attempt count N, if
attempts 1..k-1 (k <= N) return a non-200 status and attempt k fails at the transport
level, doRequest returns that failure wrapped as an http request error after exactly k
attempts and k-1 sleeps, whatever later attempts would have returned. -/
theorem doRequest_transport_ends (t : Translate) (server : Nat → Attempt) (k : Nat)
    (cause : String) (hk : 1 ≤ k) (hkN : k ≤ t.tryTimes)
    (hnon : ∀ j < k - 1, (server j).isNon200 = true)
    (herr : server (k - 1) = .transportError cause) :
    (t.doRequest none server).result = .err (.httpRequest cause)
      ∧ attempts (t.doRequest none server).trace = k
      ∧ sleeps (t.doRequest none server).trace = k - 1 := by
  have h := doRequestLoop_transport t.delay server cause (k - 1) t.tryTimes 0 (by omega)
    (fun i hi => by simpa using hnon i hi) (by simpa using herr)
  simp only [Translate.doRequest, h, attempts_append, attempts_failedRounds,
    sleeps_append, sleeps_failedRounds, true_and]
  simp [attempts, sleeps]
  omega

/-- C5 amended, witness: N = 2, transport failure on the first attempt. -/
theorem doRequest_transport_ends_witness :
    (Translate.doRequest ⟨"google.com", 0, 2, .defaultHttpClient⟩ none
        (transportErrorThenOK (.value (.array [])))).result
      = .err (.httpRequest "connection reset")
    ∧ attempts (Translate.doRequest ⟨"google.com", 0, 2, .defaultHttpClient⟩ none
        (transportErrorThenOK (.value (.array [])))).trace = 1
    ∧ sleeps (Translate.doRequest ⟨"google.com", 0, 2, .defaultHttpClient⟩ none
        (transportErrorThenOK (.value (.array [])))).trace = 1 - 1 :=
  doRequest_transport_ends ⟨"google.com", 0, 2, .defaultHttpClient⟩
    (transportErrorThenOK (.value (.array []))) 1 "connection reset"
    (by decide) (by decide) (by decide) rfl

/-- When all N attempts return a non-200 status, doRequest sleeps after each of them,
the last included: N attempts and N sleeps. -/
theorem doRequest_exhausted_trace (t : Translate) (server : Nat → Attempt)
    (hnon : ∀ j < t.tryTimes, (server j).isNon200 = true) :
    (t.doRequest none server).trace = failedRounds t.delay t.tryTimes := by
  have h := doRequestLoop_exhausted t.delay server t.tryTimes 0
    (fun i hi => by simpa using hnon i hi)
  simp only [Translate.doRequest, h]

/-- C10: with N = 1 and a 500 response, doRequest makes its single attempt, then sleeps
the delay once, and only then returns errBadRequest: one sleep, not N - 1 = 0. -/
theorem doRequest_sleeps_after_last :
    (Translate.doRequest ⟨"google.com", 3 * second, 1, .defaultHttpClient⟩ none
        (fun _ => .response 500 .malformed)).result = .err .errBadRequest
    ∧ (Translate.doRequest ⟨"google.com", 3 * second, 1, .defaultHttpClient⟩ none
        (fun _ => .response 500 .malformed)).trace = [.attempt, .sleep (3 * second)]
    ∧ sleeps (Translate.doRequest ⟨"google.com", 3 * second, 1, .defaultHttpClient⟩ none
        (fun _ => .response 500 .malformed)).trace = 1 := by
  refine ⟨rfl, rfl, ?_⟩
  decide

/-! ## Theorems about the options and `NewTranslate` -/

/-- C8: getTryTimes returns TryTimes when positive and 2 when zero, hence at least 1;
getDelay returns Delay when positive and 0 otherwise; getGoogleHost returns GoogleHost
when non-empty and "google.com" otherwise; a client built from the zero Option requests
https://translate.google.com/translate_a/single with 2 attempts and no delay. -/
theorem option_defaults (o : GoOption) (g : Globals) :
    o.getTryTimes = (if 0 < o.TryTimes then o.TryTimes else 2)
    ∧ 1 ≤ o.getTryTimes
    ∧ o.getDelay = (if 0 < o.Delay then o.Delay else 0)
    ∧ o.getGoogleHost = (if o.GoogleHost = "" then "google.com" else o.GoogleHost)
    ∧ (NewTranslate [⟨"", 0, 0, 0⟩] g).1.requestURL
        = "https://translate.google.com/translate_a/single"
    ∧ (NewTranslate [⟨"", 0, 0, 0⟩] g).1.tryTimes = 2
    ∧ (NewTranslate [⟨"", 0, 0, 0⟩] g).1.delay = 0 := by
  refine ⟨?_, ?_, ?_, ?_, ?_, rfl, rfl⟩
  · by_cases h : 0 < o.TryTimes
    · simp [GoOption.getTryTimes, h, Nat.not_le.mpr h]
    · have h0 : o.TryTimes = 0 := by omega
      simp [GoOption.getTryTimes, h0, defaultOption]
  · by_cases h : 0 < o.TryTimes
    · simp only [GoOption.getTryTimes, Nat.not_le.mpr h, if_false]
      exact h
    · have h0 : o.TryTimes = 0 := by omega
      simp [GoOption.getTryTimes, h0, defaultOption]
  · by_cases h : 0 < o.Delay
    · simp [GoOption.getDelay, h, not_le.mpr h]
    · simp [GoOption.getDelay, h, not_lt.mp h, defaultOption]
  · simp [GoOption.getGoogleHost, defaultOption]
  · simp only [NewTranslate, Translate.requestURL, GoOption.getGoogleHost, defaultOption]
    decide

/-- C9: the timeout is written into the client object shared by every Translate. After
NewTranslate with a 5 s timeout and then NewTranslate with a 1 s timeout, the first
client's timeout in effect is 1 s; and a client built with no timeout set after one
built with 5 s has 5 s in effect, not the default 10 s. -/
theorem newTranslate_timeout_shared :
    (NewTranslate [⟨"", 0, 0, 5 * second⟩] initGlobals).1.timeout
        (NewTranslate [⟨"", 0, 0, 5 * second⟩] initGlobals).2 = 5 * second
    ∧ (NewTranslate [⟨"", 0, 0, 5 * second⟩] initGlobals).1.timeout
        (NewTranslate [⟨"", 0, 0, 1 * second⟩]
          (NewTranslate [⟨"", 0, 0, 5 * second⟩] initGlobals).2).2 = 1 * second
    ∧ (NewTranslate [⟨"", 0, 0, 0⟩]
          (NewTranslate [⟨"", 0, 0, 5 * second⟩] initGlobals).2).1.timeout
        (NewTranslate [⟨"", 0, 0, 0⟩]
          (NewTranslate [⟨"", 0, 0, 5 * second⟩] initGlobals).2).2 = 5 * second := by
  refine ⟨?_, ?_, ?_⟩ <;> decide

/-! ## Theorems about `buildRequestData` and the token -/

/-- Adding entries none of which has key `k` leaves the values of `k` unchanged. -/
theorem addEntries_of_not_mem (es : List (String × String)) :
    ∀ (p : Values) (k : String), (∀ e ∈ es, e.1 ≠ k) → addEntries es p k = p k := by
  induction es with
  | nil => intro p k _; rfl
  | cons e es ih =>
    intro p k h
    have he : k ≠ e.1 := fun hk => h e (List.mem_cons_self _ _) hk.symm
    have hrest : ∀ x ∈ es, x.1 ≠ k := fun x hx => h x (List.mem_cons_of_mem _ hx)
    show addEntries es (p.Add e.1 e.2) k = p k
    rw [ih (p.Add e.1 e.2) k hrest]
    simp [Values.Add, he]

/-- Adding entries with pairwise distinct keys to a map without key `k` leaves exactly the
value paired with `k`. -/
theorem addEntries_of_mem (es : List (String × String)) :
    ∀ (p : Values) (k v : String), (es.map Prod.fst).Nodup → p k = none → (k, v) ∈ es →
      addEntries es p k = some [v] := by
  induction es with
  | nil => intro p k v _ _ h; simp at h
  | cons e es ih =>
    intro p k v hnd hp hmem
    obtain ⟨ek, ev⟩ := e
    simp only [List.map_cons, List.nodup_cons] at hnd
    show addEntries es (p.Add ek ev) k = some [v]
    rcases List.mem_cons.mp hmem with heq | htail
    · simp only [Prod.mk.injEq] at heq
      obtain ⟨rfl, rfl⟩ := heq
      have hrest : ∀ x ∈ es, x.1 ≠ k := by
        intro x hx hk
        exact hnd.1 (by rw [← hk]; exact List.mem_map_of_mem _ hx)
      rw [addEntries_of_not_mem es _ k hrest]
      simp [Values.Add, hp]
    · have hne : k ≠ ek := by
        intro hk
        exact hnd.1 (by rw [← hk]; exact List.mem_map_of_mem Prod.fst htail)
      exact ih _ k v hnd.2 (by simp [Values.Add, hne, hp]) htail

/-- The `dt` loop appends the ten values to key `dt` and touches no other key. -/
theorem dtLoop_apply (p : Values) (k : String) :
    (dtValues.foldl (fun p v => p.Add "dt" v) p) k
      = if k = "dt" then some ((p k).getD [] ++ dtValues) else p k := by
  by_cases hk : k = "dt"
  · subst hk
    cases hp : p "dt" <;> simp [dtValues, Values.Add, hp]
  · simp [dtValues, Values.Add, hk]

theorem requestData_keys_nodup (text : String) (fromTag toTag : Tag) :
    ((requestData text fromTag toTag).map Prod.fst).Nodup := by
  simp [requestData]

theorem builtParams_entry (text : String) (fromTag toTag : Tag)
    (visit : List (String × String) → List (String × String))
    (hvisit : (visit (requestData text fromTag toTag)).Perm (requestData text fromTag toTag))
    (k v : String) (hmem : (k, v) ∈ requestData text fromTag toTag)
    (hdt : k ≠ "dt") (htk : k ≠ "tk") :
    builtParams text fromTag toTag visit k = some [v] := by
  have hnd : ((visit (requestData text fromTag toTag)).map Prod.fst).Nodup :=
    (hvisit.map Prod.fst).nodup_iff.mpr (requestData_keys_nodup text fromTag toTag)
  have h := addEntries_of_mem (visit (requestData text fromTag toTag)) Values.empty k v hnd rfl
    (hvisit.mem_iff.mpr hmem)
  simp only [builtParams, Values.Add, htk, if_false, dtLoop_apply, hdt, h]

theorem builtParams_absent (text : String) (fromTag toTag : Tag)
    (visit : List (String × String) → List (String × String))
    (hvisit : (visit (requestData text fromTag toTag)).Perm (requestData text fromTag toTag))
    (k : String) (hk : k ∉ (requestData text fromTag toTag).map Prod.fst) :
    addEntries (visit (requestData text fromTag toTag)) Values.empty k = none := by
  have h := addEntries_of_not_mem (visit (requestData text fromTag toTag)) Values.empty k
    (fun e he hek => hk (by
      rw [← hek]
      exact List.mem_map_of_mem Prod.fst (hvisit.mem_iff.mp he)))
  rw [h]
  rfl

/-- C6: for every text, source tag and target tag, whatever the order in which the map
`data` is visited, buildRequestData succeeds with a parameter set whose keys are exactly
client, sl, tl, hl, ie, oe, otf, ssel, tsel, kc, q, dt and tk; the first eleven carry one
value each (client=gtx, sl=source, tl=target, hl=target, ie=UTF-8, oe=UTF-8, otf=1,
ssel=0, tsel=0, kc=7, q=text), dt carries at, bd, ex, ld, md, qca, rw, rm, ss, t in that
order, and tk carries one value, the signing token of the text. -/
theorem buildRequestData_params (t : Translate) (text : String) (fromTag toTag : Tag)
    (visit : List (String × String) → List (String × String))
    (hvisit : (visit (requestData text fromTag toTag)).Perm (requestData text fromTag toTag)) :
    ∃ p : Values, t.buildRequestData text fromTag toTag visit = .ok p
      ∧ p "client" = some ["gtx"]
      ∧ p "sl" = some [fromTag.String]
      ∧ p "tl" = some [toTag.String]
      ∧ p "hl" = some [toTag.String]
      ∧ p "ie" = some ["UTF-8"]
      ∧ p "oe" = some ["UTF-8"]
      ∧ p "otf" = some ["1"]
      ∧ p "ssel" = some ["0"]
      ∧ p "tsel" = some ["0"]
      ∧ p "kc" = some ["7"]
      ∧ p "q" = some [text]
      ∧ p "dt" = some ["at", "bd", "ex", "ld", "md", "qca", "rw", "rm", "ss", "t"]
      ∧ p "tk" = some [get (.string text) ttk]
      ∧ ∀ k : String, k ∉ ["client", "sl", "tl", "hl", "ie", "oe", "otf", "ssel", "tsel",
            "kc", "q", "dt", "tk"] → p k = none := by
  have hentry := builtParams_entry text fromTag toTag visit hvisit
  refine ⟨builtParams text fromTag toTag visit, rfl, ?_, ?_, ?_, ?_, ?_, ?_, ?_, ?_, ?_, ?_, ?_,
    ?_, ?_, ?_⟩
  · exact hentry "client" "gtx" (by simp [requestData]) (by decide) (by decide)
  · exact hentry "sl" _ (by simp [requestData]) (by decide) (by decide)
  · exact hentry "tl" _ (by simp [requestData]) (by decide) (by decide)
  · exact hentry "hl" _ (by simp [requestData]) (by decide) (by decide)
  · exact hentry "ie" "UTF-8" (by simp [requestData]) (by decide) (by decide)
  · exact hentry "oe" "UTF-8" (by simp [requestData]) (by decide) (by decide)
  · exact hentry "otf" "1" (by simp [requestData]) (by decide) (by decide)
  · exact hentry "ssel" "0" (by simp [requestData]) (by decide) (by decide)
  · exact hentry "tsel" "0" (by simp [requestData]) (by decide) (by decide)
  · exact hentry "kc" "7" (by simp [requestData]) (by decide) (by decide)
  · exact hentry "q" text (by simp [requestData]) (by decide) (by decide)
  · have h := builtParams_absent text fromTag toTag visit hvisit "dt" (by simp [requestData])
    have htk : ¬ ("dt" = "tk") := by decide
    simp only [builtParams, Values.Add, htk, if_false, dtLoop_apply, if_true, h]
    rfl
  · have h := builtParams_absent text fromTag toTag visit hvisit "tk" (by simp [requestData])
    have hdt : ¬ ("tk" = "dt") := by decide
    simp only [builtParams, Values.Add, if_true, dtLoop_apply, hdt, if_false, h]
    rfl
  · intro k hk
    simp only [List.mem_cons, List.mem_singleton, not_or, List.not_mem_nil, not_false_eq_true,
      and_true] at hk
    have h := builtParams_absent text fromTag toTag visit hvisit k (by
      simp only [requestData, List.map_cons, List.map_nil, List.mem_cons, List.mem_singleton,
        not_or, List.not_mem_nil, not_false_eq_true, and_true]
      tauto)
    have hdt : k ≠ "dt" := by tauto
    have htk : k ≠ "tk" := by tauto
    simp only [builtParams, Values.Add, htk, if_false, dtLoop_apply, hdt, h]

/-- C6 witness: the text "Hello World" from en to zh, the map visited in reverse order. -/
theorem buildRequestData_params_witness :
    ∃ p : Values,
      Translate.buildRequestData ⟨"google.com", 0, 2, .defaultHttpClient⟩ "Hello World"
          ⟨"en"⟩ ⟨"zh"⟩ List.reverse = .ok p
      ∧ p "client" = some ["gtx"]
      ∧ p "sl" = some [Tag.String ⟨"en"⟩]
      ∧ p "tl" = some [Tag.String ⟨"zh"⟩]
      ∧ p "hl" = some [Tag.String ⟨"zh"⟩]
      ∧ p "ie" = some ["UTF-8"]
      ∧ p "oe" = some ["UTF-8"]
      ∧ p "otf" = some ["1"]
      ∧ p "ssel" = some ["0"]
      ∧ p "tsel" = some ["0"]
      ∧ p "kc" = some ["7"]
      ∧ p "q" = some ["Hello World"]
      ∧ p "dt" = some ["at", "bd", "ex", "ld", "md", "qca", "rw", "rm", "ss", "t"]
      ∧ p "tk" = some [get (.string "Hello World") ttk]
      ∧ ∀ k : String, k ∉ ["client", "sl", "tl", "hl", "ie", "oe", "otf", "ssel", "tsel",
            "kc", "q", "dt", "tk"] → p k = none :=
  buildRequestData_params ⟨"google.com", 0, 2, .defaultHttpClient⟩ "Hello World"
    ⟨"en"⟩ ⟨"zh"⟩ List.reverse (List.reverse_perm _)

theorem seedParts_ttk : seedParts "0" = (0, 0) := by decide

theorem signValue_lt (bytes : List Nat) (h s : Nat) : signValue bytes h s < 1000000 := by
  unfold signValue
  exact Nat.mod_lt _ (by decide)

theorem toInt32_of_lt (n : Nat) (h : n < 1000000) : toInt32 n = (n : Int) := by
  have hw : wrap32 n = n := Nat.mod_eq_of_lt (by omega)
  have hlt : n < 2 ^ 31 := by omega
  unfold toInt32
  rw [hw, if_pos hlt]

/-- C7: with the fixed seed key "0" (h = 0), for every text the signing token that
buildRequestData puts under tk has the form "a.b" for natural numbers a and b printed in
decimal, with a < 1,000,000 and b = a XOR h = a; both parts fit in the 32-bit signed
range. -/
theorem token_form (text : String) :
    ∃ a b : Nat, get (.string text) ttk = toString a ++ "." ++ toString b
      ∧ a < 1000000
      ∧ (b : Int) = toInt32 (a ^^^ wrap32 (seedParts "0").1)
      ∧ b = a
      ∧ (a : Int) < 2 ^ 31 ∧ (b : Int) < 2 ^ 31 := by
  have hlt := signValue_lt (utf8Expand text) 0 0
  have h32 : (signValue (utf8Expand text) 0 0 : Int) < 2 ^ 31 := by
    have : (signValue (utf8Expand text) 0 0 : Int) < 1000000 := by exact_mod_cast hlt
    omega
  have hx : toInt32 (signValue (utf8Expand text) 0 0 ^^^ wrap32 0)
      = (signValue (utf8Expand text) 0 0 : Int) := by
    have hz : wrap32 0 = 0 := rfl
    rw [hz, Nat.xor_zero]
    exact toInt32_of_lt _ hlt
  refine ⟨signValue (utf8Expand text) 0 0, signValue (utf8Expand text) 0 0, ?_, hlt, ?_, rfl,
    h32, h32⟩
  · simp only [get, ttk, seedParts_ttk, hx]
    rfl
  · rw [seedParts_ttk, hx]

end Gtranslate
